import Mathlib

/-!
Verification development for the SPDXv3 element/document assembly scripts
(spdx3.py and make-tu.py).  Python strings are modelled as lists of
characters, Python dicts as insertion-ordered association lists, and the
fallible parts of the code (KeyError, TypeError, AttributeError, ValueError)
as an explicit error type.  The identifier codec (expand_iri / compress_iri),
the element reference walker (compress_ids), and the document assembler loop
(SpdxFile.make) are translated from spdx3.py; the make-tu.py variants of the
codec functions are textually identical to the spdx3.py ones, so a single
embedding covers both.  Output-file writing is modelled by the value carried
in the success constructor of the assembler's result: the code performs its
single output write at the very end of make, so a run that ends in an error
performs no write.
-/

/-- Python strings are modelled as lists of characters. -/
abbrev Str := List Char

/-- Python exceptions raised by the code paths under study. -/
inductive PyErr where
  | keyError (k : Str)
  | typeError
  | attributeError
  | valueError
deriving DecidableEq

deriving instance DecidableEq for Except

/-- Lookup in an insertion-ordered dict (Python d.get(k) / d[k]). -/
def lookupAssoc {α : Type} (l : List (Str × α)) (k : Str) : Option α :=
  match l.find? (fun kv => kv.1 == k) with
  | some kv => some kv.2
  | none => none

/-- In-place value replacement for an existing dict key (position kept). -/
def updateAssoc {α : Type} : List (Str × α) → Str → α → List (Str × α)
  | [], _, _ => []
  | kv :: rest, k, v => if kv.1 == k then (kv.1, v) :: rest else kv :: updateAssoc rest k v

/-- Python's "needle in haystack" substring test for strings. -/
def occursIn (old : Str) : Str → Bool
  | [] => old.isEmpty
  | c :: rest => old.isPrefixOf (c :: rest) || occursIn old rest

/-- Fuel-indexed worker for Python str.replace with a non-empty pattern:
scan left to right, replacing each non-overlapping occurrence. -/
def pyRepGo (old new : Str) : Nat → Str → Str
  | 0, s => s
  | _, [] => []
  | fuel+1, c :: rest =>
    if old.isPrefixOf (c :: rest) then new ++ pyRepGo old new fuel (rest.drop (old.length - 1))
    else c :: pyRepGo old new fuel rest

/-- Python str.replace(old, new): replaces every non-overlapping occurrence,
left to right.  An empty pattern inserts new before every character and at
the end, exactly as in Python. -/
def pyReplace (s old new : Str) : Str :=
  if old.isEmpty then new ++ s.foldr (fun c acc => c :: (new ++ acc)) []
  else pyRepGo old new s.length s

/-- Characters allowed in a URL scheme (urllib's scheme_chars). -/
def schemeChar (c : Char) : Bool := c.isAlphanum || c == '+' || c == '-' || c == '.'

/-- The fields of urllib.parse.urlsplit that the code can observe. -/
structure SplitParts where
  scheme : Str
  netloc : Str
  path : Str
  query : Str
  fragment : Str
deriving DecidableEq

/-- Model of urllib.parse.urlsplit: strip leading C0-control/space characters,
remove tab/CR/LF, detect a scheme (first colon preceded by an ASCII letter and
scheme characters only, lowercased), split off a //netloc (rejecting a
mismatched IPv6 bracket with ValueError), then split fragment at the first
number sign and query at the first question mark. -/
def pyUrlsplit (url0 : Str) : Except PyErr SplitParts :=
  let u1 := url0.dropWhile (fun c => c.toNat ≤ 32)
  let u2 := u1.filter (fun c => !(c == '\t' || c == '\r' || c == '\n'))
  let i := u2.findIdx (fun c => c == ':')
  let sr : Str × Str :=
    if (decide (0 < i) && decide (i < u2.length) && (u2.headD ' ').isAlpha
        && (u2.take i).all schemeChar) then
      ((u2.take i).map Char.toLower, u2.drop (i+1))
    else ([], u2)
  let nl : Except PyErr (Str × Str) :=
    if sr.2.take 2 == ['/', '/'] then
      let r2 := sr.2.drop 2
      let j := r2.findIdx (fun c => c == '/' || c == '?' || c == '#')
      let netloc := r2.take j
      if (netloc.contains '[' && !(netloc.contains ']'))
          || (netloc.contains ']' && !(netloc.contains '[')) then
        .error .valueError
      else .ok (netloc, r2.drop j)
    else .ok ([], sr.2)
  match nl with
  | .error e => .error e
  | .ok (netloc, rest2) =>
    let fr : Str × Str :=
      if rest2.contains '#' then
        let k := rest2.findIdx (fun c => c == '#')
        (rest2.take k, rest2.drop (k+1))
      else (rest2, [])
    let qr : Str × Str :=
      if fr.1.contains '?' then
        let k := fr.1.findIdx (fun c => c == '?')
        (fr.1.take k, fr.1.drop (k+1))
      else (fr.1, [])
    .ok { scheme := sr.1, netloc := netloc, path := qr.1, query := qr.2, fragment := fr.2 }

/-- Schemes for which urlparse splits path parameters (urllib's uses_params). -/
def usesParams : List Str :=
  [[], "ftp".toList, "hdl".toList, "prospero".toList, "http".toList, "imap".toList,
   "https".toList, "shttp".toList, "rtsp".toList, "rtspu".toList, "sip".toList,
   "sips".toList, "mms".toList, "sftp".toList, "tel".toList]

/-- Index of the last slash of a string known to contain one (str.rfind). -/
def rfindSlash (p : Str) : Nat := p.length - 1 - p.reverse.findIdx (fun c => c == '/')

/-- First occurrence of a character at or after a start index (str.find(c, i)). -/
def findFrom (p : Str) (start : Nat) (ch : Char) : Option Nat :=
  let j := (p.drop start).findIdx (fun c => c == ch)
  if j < (p.drop start).length then some (start + j) else none

/-- urllib's _splitparams: split path parameters at the first semicolon of the
last path segment. -/
def splitParams (p : Str) : Str × Str :=
  if p.contains '/' then
    match findFrom p (rfindSlash p) ';' with
    | none => (p, [])
    | some i => (p.take i, p.drop (i+1))
  else
    let i := p.findIdx (fun c => c == ';')
    (p.take i, p.drop (i+1))

/-- The two fields of urllib.parse.urlparse read by expand_iri. -/
structure UrlParts where
  scheme : Str
  path : Str
deriving DecidableEq

/-- Model of urllib.parse.urlparse: urlsplit plus parameter splitting for the
schemes in uses_params. -/
def pyUrlparse (s : Str) : Except PyErr UrlParts :=
  match pyUrlsplit s with
  | .error e => .error e
  | .ok sp =>
    let path :=
      if sp.scheme ∈ usesParams ∧ sp.path.contains ';' then (splitParams sp.path).1
      else sp.path
    .ok { scheme := sp.scheme, path := path }

/-- The context dict handed to the identifier codec.  Option models key
presence; idsKey records whether the mutable id-accumulator key is present;
otherKeys counts further keys (they only affect dict truthiness). -/
structure Ctx where
  namespc : Option Str := none
  prefixes : Option (List (Str × Str)) := none
  docIds : Option (List Str) := none
  idsKey : Bool := false
  otherKeys : Nat := 0
deriving DecidableEq

/-- Python truthiness of the context dict: non-empty iff it has some key. -/
def Ctx.truthy (c : Ctx) : Bool :=
  c.namespc.isSome || c.prefixes.isSome || c.docIds.isSome || c.idsKey || c.otherKeys != 0

/-- The prefix scan of compress_iri: first entry whose value is a leading
substring of the IRI wins, and str.replace rewrites every occurrence. -/
def prefixLoop (iri : Str) : List (Str × Str) → Str
  | [] => iri
  | kv :: rest =>
    if kv.2.isPrefixOf iri then pyReplace iri kv.2 (kv.1 ++ [':'])
    else prefixLoop iri rest

/-- compress_iri from spdx3.py (identical in make-tu.py): with a truthy
context, a non-empty namespace that prefixes the IRI is replaced (all
occurrences) by the empty string; otherwise the first matching prefix value is
replaced (all occurrences) by the prefix key plus a colon; otherwise, or with
a falsy context, the IRI is returned unchanged. -/
def compressIri (c : Ctx) (iri : Str) : Str :=
  if !c.truthy then iri
  else
    let base := c.namespc.getD []
    if !base.isEmpty && base.isPrefixOf iri then pyReplace iri base []
    else prefixLoop iri (c.prefixes.getD [])

/-- expand_iri from spdx3.py (identical in make-tu.py): with a truthy context
the identifier is parsed with urlparse; a non-empty scheme is looked up in the
prefixes dict (raising KeyError if the key is absent), and a truthy prefix is
prepended to the parsed path component; an unmapped scheme returns the
identifier unchanged; a scheme-less identifier gets the namespace prepended
(the undefined-element diagnostic print does not affect the value). -/
def expandIri (c : Ctx) (elementId : Str) : Except PyErr Str :=
  if !c.truthy then .ok elementId
  else
    match pyUrlparse elementId with
    | .error e => .error e
    | .ok u =>
      if !u.scheme.isEmpty then
        match c.prefixes with
        | none => .error (.keyError ("prefixes".toList))
        | some ps =>
          let pfx := (lookupAssoc ps u.scheme).getD []
          if pfx.isEmpty then .ok elementId else .ok (pfx ++ u.path)
      else .ok ((c.namespc.getD []) ++ elementId)

/-- The concrete scenario context of the spec: namespace of doc1 with a single
named prefix ext for the shared namespace. -/
def ctx9 : Ctx where
  namespc := some ("https://example.org/doc1#".toList)
  prefixes := some [("ext".toList, "https://example.org/shared#".toList)]

example : expandIri ctx9 ("foo".toList)
    = .ok ("https://example.org/doc1#foo".toList) := by decide

example : compressIri ctx9 ("https://example.org/shared#bar".toList)
    = "ext:bar".toList := by decide

/-- A decoded JSON value as it occurs in element property bags: a string or a
(possibly nested) list. -/
inductive PVal where
  | s (v : Str)
  | arr (vs : List PVal)

/-- Boolean equality on property values (deriving cannot handle the nested
inductive, so the instance is built by hand). -/
def PVal.beq : PVal → PVal → Bool
  | .s a, .s b => a == b
  | .arr as, .arr bs => go as bs
  | _, _ => false
where
  go : List PVal → List PVal → Bool
  | [], [] => true
  | a :: as, b :: bs => PVal.beq a b && go as bs
  | _, _ => false

mutual

theorem PVal.beq_iff : ∀ (a b : PVal), PVal.beq a b = true ↔ a = b
  | .s x, .s y => by simp [PVal.beq]
  | .s _, .arr _ => by simp [PVal.beq]
  | .arr _, .s _ => by simp [PVal.beq]
  | .arr xs, .arr ys => by simp [PVal.beq, PVal.beqGo_iff xs ys]

theorem PVal.beqGo_iff : ∀ (xs ys : List PVal), PVal.beq.go xs ys = true ↔ xs = ys
  | [], [] => by simp [PVal.beq.go]
  | [], _ :: _ => by simp [PVal.beq.go]
  | _ :: _, [] => by simp [PVal.beq.go]
  | x :: xs, y :: ys => by
    simp [PVal.beq.go, PVal.beq_iff x y, PVal.beqGo_iff xs ys]

end

instance : DecidableEq PVal := fun a b => decidable_of_iff _ (PVal.beq_iff a b)

/-- A decoded Element record from spdx3.py: the id key (always present in a
decoded element), the optional scalar creator key, the type dict mapping
element kinds to property bags, and the remaining keys (created, specVersion,
profile, dataLicense, ...) which compress_ids never touches. -/
structure Element where
  id : Str
  creator : Option PVal := none
  typ : List (Str × List (Str × PVal)) := []
  others : List (Str × PVal) := []
deriving DecidableEq

/-- compress_iri applied to an arbitrary decoded value, as Python does when a
non-string reaches it: startswith on a non-string raises AttributeError, which
happens as soon as a truthy context supplies a non-empty namespace or any
prefix entry; otherwise the value passes through unchanged. -/
def compressIriV (c : Ctx) (v : PVal) : Except PyErr PVal :=
  match v with
  | .s t => .ok (.s (compressIri c t))
  | .arr vs =>
    if !c.truthy then .ok (.arr vs)
    else if (c.namespc.getD []).isEmpty then
      if (c.prefixes.getD []).isEmpty then .ok (.arr vs) else .error .attributeError
    else .error .attributeError

/-- The property names treated as identifier lists by spdx3.py's walker. -/
def containerProps : List Str :=
  ["element".toList, "rootElement".toList, "originator".toList, "members".toList]

/-- The per-property pass of compress_ids: walk the property bag in insertion
order; a property named in containerProps contributes its members to the
discovered-id list and is rewritten through compress_iri.  A string value in
such a position is iterated character by character, exactly as Python's
iteration over a string does. -/
def processProps (c : Ctx) : List (Str × PVal) → Except PyErr (List (Str × PVal) × List PVal)
  | [] => .ok ([], [])
  | (p, v) :: rest =>
    if p ∈ containerProps then
      match v with
      | .arr vs =>
        match vs.mapM (compressIriV c) with
        | .error e => .error e
        | .ok vs2 =>
          match processProps c rest with
          | .error e => .error e
          | .ok (rest2, ids2) => .ok ((p, .arr vs2) :: rest2, vs ++ ids2)
      | .s t =>
        let vs2 := t.map (fun ch => PVal.s (compressIri c [ch]))
        match processProps c rest with
        | .error e => .error e
        | .ok (rest2, ids2) =>
          .ok ((p, PVal.arr vs2) :: rest2, (t.map fun ch => PVal.s [ch]) ++ ids2)
    else
      match processProps c rest with
      | .error e => .error e
      | .ok (rest2, ids2) => .ok ((p, v) :: rest2, ids2)

/-- The per-kind tail of compress_ids.  For an annotation kind the subject is
appended to the discovered ids with Python += (character by character when it
is a string!) and then compressed in place; for a relationship kind the from
value and the to list are appended ([from] + to raises TypeError when to is
not a list) and compressed in place; other kinds get no extra treatment. -/
def processEType (c : Ctx) (etype : Str) (eprops : List (Str × PVal)) :
    Except PyErr (List (Str × PVal) × List PVal) :=
  match processProps c eprops with
  | .error e => .error e
  | .ok (props1, ids1) =>
    if etype == "annotation".toList then
      match lookupAssoc props1 ("subject".toList) with
      | none => .error (.keyError ("subject".toList))
      | some sv =>
        let extra : List PVal :=
          match sv with
          | .s t => t.map (fun ch => PVal.s [ch])
          | .arr vs => vs
        match compressIriV c sv with
        | .error e => .error e
        | .ok sv2 => .ok (updateAssoc props1 ("subject".toList) sv2, ids1 ++ extra)
    else if etype == "relationship".toList then
      match lookupAssoc props1 ("from".toList) with
      | none => .error (.keyError ("from".toList))
      | some fv =>
        match lookupAssoc props1 ("to".toList) with
        | none => .error (.keyError ("to".toList))
        | some tv =>
          match tv with
          | .s _ => .error .typeError
          | .arr tvs =>
            match compressIriV c fv with
            | .error e => .error e
            | .ok fv2 =>
              match tvs.mapM (compressIriV c) with
              | .error e => .error e
              | .ok tvs2 =>
                .ok (updateAssoc (updateAssoc props1 ("from".toList) fv2)
                      ("to".toList) (.arr tvs2),
                     ids1 ++ [fv] ++ tvs)
    else .ok (props1, ids1)

/-- The loop of compress_ids over the entries of the element's type dict. -/
def processTyps (c : Ctx) :
    List (Str × List (Str × PVal)) → Except PyErr (List (Str × List (Str × PVal)) × List PVal)
  | [] => .ok ([], [])
  | (et, props) :: rest =>
    match processEType c et props with
    | .error e => .error e
    | .ok (props2, ids1) =>
      match processTyps c rest with
      | .error e => .error e
      | .ok (rest2, ids2) => .ok ((et, props2) :: rest2, ids1 ++ ids2)

/-- compress_ids from spdx3.py, as a state transformer on the element it
mutates: the result pairs the element after the call with the list of
identifier values the walker collected (and would append to the context's id
accumulator when that key is present).  The id is collected before compression
and rewritten in place; a present creator value is collected, then replaced by
the one-element list of its compressed form; then every type entry is walked. -/
def compressIdsElement (c : Ctx) (e : Element) : Except PyErr (Element × List PVal) :=
  let ids0 : List PVal := [.s e.id]
  let newId := compressIri c e.id
  match e.creator with
  | none =>
    match processTyps c e.typ with
    | .error er => .error er
    | .ok (typ2, ids2) => .ok ({ e with id := newId, typ := typ2 }, ids0 ++ ids2)
  | some cv =>
    match compressIriV c cv with
    | .error er => .error er
    | .ok cv2 =>
      match processTyps c e.typ with
      | .error er => .error er
      | .ok (typ2, ids2) =>
        .ok ({ e with id := newId, creator := some (.arr [cv2]), typ := typ2 },
             (ids0 ++ [cv]) ++ ids2)

/-- The Element Store: the dict built by the comprehension keyed on each
element's id. -/
abbrev Store := List (Str × Element)

/-- Dict insertion: replace the value of an existing key in place, otherwise
append the new key. -/
def storeSet : Store → Str → Element → Store
  | [], k, v => [(k, v)]
  | kv :: rest, k, v => if kv.1 == k then (kv.1, v) :: rest else kv :: storeSet rest k v

/-- The store built from the decoded element list, later duplicates winning. -/
def buildStore (es : List Element) : Store := es.foldl (fun ex e => storeSet ex e.id e) []

/-- Dict lookup in the store. -/
def storeGet (ex : Store) (k : Str) : Option Element :=
  match ex.find? (fun kv => kv.1 == k) with
  | some kv => some kv.2
  | none => none

/-- Membership of a value in a Python list (the in operator). -/
def memB (v : PVal) (l : List PVal) : Bool := l.any (fun x => decide (x = v))

/-- Python set-union accumulation: elements |= set(ids), modelled as an
insertion-ordered duplicate-free list (only membership in the result is
relied upon; Python's set iteration order is unspecified). -/
def setUnion (acc : List PVal) (ids : List PVal) : List PVal :=
  ids.foldl (fun a v => if memB v a then a else a ++ [v]) acc

/-- The result of one run of SpdxFile.make: the element-id list written to the
output file, or the Python exception that aborted the run before the write,
or fuel exhaustion of the worklist loop (the loop ran that many iterations
without reaching the empty worklist). -/
inductive MakeOut where
  | ok (elems : List PVal)
  | err (e : PyErr)
  | hang
deriving DecidableEq

/-- One generation of the worklist: [compress_ids(sfile, ex[k]) for k in
elist].  Looking up a list key raises TypeError; a missing id raises KeyError;
each processed element is written back to the store (the dict holds the very
object that compress_ids mutates), and the collected ids accumulate in order. -/
def runElist (c : Ctx) : Store → List PVal → List PVal → Except PyErr (Store × List PVal)
  | ex, acc, [] => .ok (ex, acc)
  | ex, acc, k :: rest =>
    match k with
    | .arr _ => .error .typeError
    | .s ks =>
      match storeGet ex ks with
      | none => .error (.keyError ks)
      | some e =>
        match compressIdsElement c e with
        | .error er => .error er
        | .ok (e2, ids) => runElist c (storeSet ex ks e2) (acc ++ ids) rest

/-- The worklist loop of SpdxFile.make, fuel-indexed: while elist is
non-empty, run one generation, abort on any exception (a non-string id in the
set union raises TypeError), otherwise grow the element set with the collected
ids and take as the next worklist the collected ids not in the current
worklist.  On the empty worklist the output file named by the configuration is
written (a missing filename key raises KeyError there). -/
def makeLoop (c : Ctx) (fname : Option Str) :
    Nat → Store → List PVal → List PVal → MakeOut
  | 0, _, [], elems =>
    (match fname with
     | none => .err (.keyError ("filename".toList))
     | some _ => .ok elems)
  | 0, _, _ :: _, _ => .hang
  | _+1, _, [], elems =>
    (match fname with
     | none => .err (.keyError ("filename".toList))
     | some _ => .ok elems)
  | n+1, ex, k :: ks, elems =>
    match runElist c ex [] (k :: ks) with
    | .error e => .err e
    | .ok (ex2, ids) =>
      if ids.any (fun v => match v with | .arr _ => true | _ => false) then .err .typeError
      else makeLoop c fname n ex2 (ids.filter (fun i => !(memB i (k :: ks))))
            (setUnion elems ids)

/-- The configuration record read by SpdxFile.make; Option models presence of
the recognized keys. -/
structure Config where
  namespc : Option Str := none
  prefixes : Option (List (Str × Str)) := none
  creationInfo : Option Str := none
  includeList : Option (List Str) := none
  filename : Option Str := none
deriving DecidableEq

/-- SpdxFile.make from spdx3.py, given the decoded configuration and the
decoded element pool (schema and file I/O are external collaborators).  The
steps and their failure order follow the source: build the store, look up the
creationInfo element (KeyError when absent), access its creator and created
for the diagnostic print, read the namespace from the configuration, copy the
default properties (KeyError for each one absent from the creation-info
element), read the include list, and run the worklist loop under the document
context; the output write is the ok value of the loop. -/
def makeRun (fuel : Nat) (cfg : Config) (es : List Element) : MakeOut :=
  let ex := buildStore es
  match cfg.creationInfo with
  | none => .err (.keyError ("creationInfo".toList))
  | some ci =>
    match storeGet ex ci with
    | none => .err (.keyError ci)
    | some ed =>
      if ed.creator.isNone then .err (.keyError ("creator".toList))
      else if (lookupAssoc ed.others ("created".toList)).isNone then
        .err (.keyError ("created".toList))
      else
        match cfg.namespc with
        | none => .err (.keyError ("namespace".toList))
        | some ns =>
          if (lookupAssoc ed.others ("specVersion".toList)).isNone then
            .err (.keyError ("specVersion".toList))
          else if (lookupAssoc ed.others ("profile".toList)).isNone then
            .err (.keyError ("profile".toList))
          else if (lookupAssoc ed.others ("dataLicense".toList)).isNone then
            .err (.keyError ("dataLicense".toList))
          else
            match cfg.includeList with
            | none => .err (.keyError ("include".toList))
            | some elist0 =>
              let sctx : Ctx :=
                { namespc := some ns,
                  prefixes := match cfg.prefixes with
                              | some ps => if ps.isEmpty then none else some ps
                              | none => none,
                  docIds := none, idsKey := true, otherKeys := 5 }
              makeLoop sctx cfg.filename fuel ex (elist0.map PVal.s) []

/-- A creation-info element carrying every default property that make copies
into the output document. -/
def elemCI : Element where
  id := "CI".toList
  creator := some (.s ("c".toList))
  typ := [("creationInfo".toList, [])]
  others := [("created".toList, .s ("t".toList)),
             ("specVersion".toList, .s ("3".toList)),
             ("profile".toList, .s ("core".toList)),
             ("dataLicense".toList, .s ("CC0".toList))]

/-- An annotation element whose subject references the element B1. -/
def elemA1 : Element where
  id := "A".toList
  typ := [("annotation".toList, [("subject".toList, PVal.s ("B1".toList))])]

/-- The element referenced by the annotation; it has no outgoing references. -/
def elemB1 : Element where
  id := "B1".toList
  typ := [("file".toList, [])]

/-- Configuration for the annotation store: seed the closure at A. -/
def cfg1 : Config where
  namespc := some ("N#".toList)
  creationInfo := some ("CI".toList)
  includeList := some ["A".toList]
  filename := some ("f".toList)

/-- The element pool for the annotation scenario. -/
def elems1 : List Element := [elemCI, elemA1, elemB1]

example : makeRun 10 cfg1 elems1 = .err (.keyError ("B".toList)) := by decide

/-- Relationship element A pointing at B. -/
def elemA2 : Element where
  id := "A".toList
  typ := [("relationship".toList,
           [("from".toList, PVal.s ("A".toList)),
            ("to".toList, PVal.arr [PVal.s ("B".toList)])])]

/-- Relationship element B pointing back at A: a two-element reference cycle. -/
def elemB2 : Element where
  id := "B".toList
  typ := [("relationship".toList,
           [("from".toList, PVal.s ("B".toList)),
            ("to".toList, PVal.arr [PVal.s ("A".toList)])])]

/-- Configuration for the cycle store: seed the closure at A.  The namespace
does not prefix the element ids, so compression leaves them unchanged. -/
def cfg2 : Config where
  namespc := some ("N#".toList)
  creationInfo := some ("CI".toList)
  includeList := some ["A".toList]
  filename := some ("f".toList)

/-- The element pool for the cycle scenario. -/
def elems2 : List Element := [elemCI, elemA2, elemB2]

/-- The document context that make builds for cfg2. -/
def ctx2 : Ctx where
  namespc := some ("N#".toList)
  prefixes := none
  docIds := none
  idsKey := true
  otherKeys := 5

/-- The store built from the cycle pool. -/
def ex2 : Store := buildStore elems2

/-- The element set after the first generation of the cycle run. -/
def ee2 : List PVal := [.s ("A".toList), .s ("B".toList)]

example : makeRun 0 cfg2 elems2 = .hang := by decide
example : makeRun 1 cfg2 elems2 = .hang := by decide
example : makeRun 5 cfg2 elems2 = .hang := by decide
example : makeLoop ctx2 (some ("f".toList)) 1 ex2 [.s ("A".toList)] ee2
    = makeLoop ctx2 (some ("f".toList)) 0 ex2 [.s ("B".toList)] ee2 := by decide
example : makeLoop ctx2 (some ("f".toList)) 1 ex2 [.s ("B".toList)] ee2
    = makeLoop ctx2 (some ("f".toList)) 0 ex2 [.s ("A".toList)] ee2 := by decide

/-- On the two-element cycle the worklist loop is periodic: because the newly
discovered ids are filtered only against the current worklist and compression
does not rewrite these ids, the state alternates between worklist A and
worklist B forever, whatever fuel remains. -/
theorem makeLoop_cycle_alternates :
    ∀ n, makeLoop ctx2 (some ("f".toList)) n ex2 [.s ("A".toList)] ee2 = .hang
       ∧ makeLoop ctx2 (some ("f".toList)) n ex2 [.s ("B".toList)] ee2 = .hang := by
  intro n
  induction n with
  | zero => exact ⟨rfl, rfl⟩
  | succ k ih => exact ⟨ih.2, ih.1⟩

/-- A list starts with itself followed by anything (Bool form). -/
theorem isPrefixOf_append_self (a b : Str) : a.isPrefixOf (a ++ b) = true := by
  induction a with
  | nil => simp [List.isPrefixOf]
  | cons c cs ih => simp [List.isPrefixOf, ih]

/-- If the pattern does not occur in the string, the replace worker leaves the
string unchanged (with enough fuel). -/
theorem pyRepGo_no_occ (old new : Str) :
    ∀ (s : Str) (fuel : Nat), occursIn old s = false → s.length ≤ fuel →
      pyRepGo old new fuel s = s := by
  intro s
  induction s with
  | nil => intro fuel _ _; cases fuel <;> rfl
  | cons c rest ih =>
    intro fuel hocc hlen
    cases fuel with
    | zero => simp at hlen
    | succ f =>
      simp only [occursIn, Bool.or_eq_false_iff] at hocc
      have hl : rest.length ≤ f := by simp at hlen; omega
      simp [pyRepGo, hocc.1, ih f hocc.2 hl]

/-- Replacing a non-empty pattern that heads the string and does not occur in
the remainder rewrites exactly the leading occurrence. -/
theorem pyRepGo_strip (old new tl : Str) :
    ∀ fuel, old ≠ [] → occursIn old tl = false → (old ++ tl).length ≤ fuel →
      pyRepGo old new fuel (old ++ tl) = new ++ tl := by
  intro fuel hne hocc hlen
  match old, hne with
  | o0 :: ot, _ =>
    cases fuel with
    | zero => simp at hlen
    | succ f =>
      show pyRepGo (o0 :: ot) new (f+1) (o0 :: (ot ++ tl)) = new ++ tl
      rw [show pyRepGo (o0 :: ot) new (f+1) (o0 :: (ot ++ tl))
            = if (o0 :: ot).isPrefixOf (o0 :: (ot ++ tl)) then
                new ++ pyRepGo (o0 :: ot) new f ((ot ++ tl).drop ((o0 :: ot).length - 1))
              else o0 :: pyRepGo (o0 :: ot) new f (ot ++ tl) from rfl]
      rw [show (o0 :: (ot ++ tl)) = (o0 :: ot) ++ tl from rfl,
          isPrefixOf_append_self (o0 :: ot) tl]
      simp only [if_true, List.length_cons, Nat.add_sub_cancel]
      rw [show (ot ++ tl).drop ot.length = tl from List.drop_left ot tl]
      rw [pyRepGo_no_occ (o0 :: ot) new tl f hocc (by simp at hlen; omega)]

/-- Python str.replace removes a leading non-empty pattern occurrence exactly
when the pattern does not occur in the rest of the string. -/
theorem pyReplace_strip (old new tl : Str) (hne : old ≠ []) (hocc : occursIn old tl = false) :
    pyReplace (old ++ tl) old new = new ++ tl := by
  unfold pyReplace
  rw [if_neg (by simpa [List.isEmpty_iff] using hne)]
  exact pyRepGo_strip old new tl (old ++ tl).length hne hocc (Nat.le_refl _)

/-- The prefix scan returns the IRI unchanged when no table value heads it. -/
theorem prefixLoop_no_match (iri : Str) :
    ∀ l : List (Str × Str), (∀ kv ∈ l, kv.2.isPrefixOf iri = false) →
      prefixLoop iri l = iri := by
  intro l
  induction l with
  | nil => intro _; rfl
  | cons kv rest ih =>
    intro h
    simp only [prefixLoop, h kv (List.mem_cons_self kv rest), Bool.false_eq_true, if_false]
    exact ih (fun x hx => h x (List.mem_cons_of_mem kv hx))

/-- Claim-side reading of compress (C4's wording): strip the leading
namespace occurrence and return the remainder; otherwise replace the leading
occurrence of the first matching prefix value by the key plus a colon;
otherwise return the IRI unchanged. -/
def compressSpecClaim (c : Ctx) (iri : Str) : Str :=
  let base := c.namespc.getD []
  if base.isPrefixOf iri then iri.drop base.length
  else
    match (c.prefixes.getD []).find? (fun kv => kv.2.isPrefixOf iri) with
    | some kv => kv.1 ++ [':'] ++ iri.drop kv.2.length
    | none => iri

/-- Amended reading of compress: as the claim, except that str.replace
rewrites every non-overlapping occurrence of the matched namespace or prefix
value, not only the leading one. -/
def compressSpecAmended (c : Ctx) (iri : Str) : Str :=
  let base := c.namespc.getD []
  if base.isPrefixOf iri then pyReplace iri base []
  else
    match (c.prefixes.getD []).find? (fun kv => kv.2.isPrefixOf iri) with
    | some kv => pyReplace iri kv.2 (kv.1 ++ [':'])
    | none => iri

/-- Claim-side reading of expand (C5's wording): look the scheme up in the
prefix table; when found, return the prefix concatenated with the entire
remainder of the identifier after the scheme and its separating colon; when
not found, return the identifier unchanged. -/
def expandSpecClaim (c : Ctx) (idv : Str) : Except PyErr Str :=
  match pyUrlparse idv with
  | .error e => .error e
  | .ok u =>
    match c.prefixes with
    | none => .error (.keyError ("prefixes".toList))
    | some ps =>
      match lookupAssoc ps u.scheme with
      | some pfx => .ok (pfx ++ idv.drop (u.scheme.length + 1))
      | none => .ok idv

/-- Amended reading of expand for scheme-carrying identifiers: the looked-up
prefix is concatenated with the urlparse path component (netloc, parameters,
query and fragment are dropped), a scheme mapped to a falsy prefix or absent
from the table leaves the identifier unchanged, and a context without a
prefixes key raises KeyError. -/
def expandSpecAmended (c : Ctx) (idv : Str) : Except PyErr Str :=
  match pyUrlparse idv with
  | .error e => .error e
  | .ok u =>
    match c.prefixes with
    | none => .error (.keyError ("prefixes".toList))
    | some ps =>
      let pfx := (lookupAssoc ps u.scheme).getD []
      if pfx.isEmpty then .ok idv else .ok (pfx ++ u.path)

/-- The prefix scan is the first match of the table in iteration order. -/
theorem prefixLoop_eq_find (iri : Str) :
    ∀ l : List (Str × Str),
      prefixLoop iri l
        = (match l.find? (fun kv => kv.2.isPrefixOf iri) with
           | some kv => pyReplace iri kv.2 (kv.1 ++ [':'])
           | none => iri) := by
  intro l
  induction l with
  | nil => rfl
  | cons kv rest ih =>
    by_cases h : kv.2.isPrefixOf iri = true
    · simp [prefixLoop, List.find?, h]
    · simp only [Bool.not_eq_true] at h
      simp [prefixLoop, List.find?, h, ih]

/-- A context with namespace ab only, used to exercise the replace-all
behaviour of compress on an IRI containing the namespace twice. -/
def ctxAB : Ctx where
  namespc := some ("ab".toList)

/-- A context with namespace and one named prefix, used to exercise the
fragment-dropping behaviour of expand. -/
def ctx5 : Ctx where
  namespc := some ("N#".toList)
  prefixes := some [("ext".toList, "P#".toList)]

/-- A context carrying only a namespace. -/
def ctxN : Ctx where
  namespc := some ("N#".toList)

/-- An element whose id lies under the ctxN namespace. -/
def e7 : Element where
  id := "N#x".toList

/-- The value of e7 after compress_ids has run on it. -/
def e7post : Element where
  id := "x".toList

/-- An element with an id and a scalar creator under the ctxN namespace. -/
def e7b : Element where
  id := "N#x".toList
  creator := some (.s ("N#y".toList))

/-- The value of e7b after compress_ids has run on it: the id is compressed in
place and the creator is replaced by the one-element list of its compressed
form. -/
def e7bPost : Element where
  id := "x".toList
  creator := some (.arr [.s ("y".toList)])

/-- The empty (falsy) context dict. -/
def ctxEmpty : Ctx := {}

/-- C1: the worklist of SpdxFile.make does not follow annotation subject
references as identifiers: compress_ids extends its discovered-id list with
the subject string itself (Python += iterates its characters), so on a store
where A is an annotation whose subject is the element B1, the run enqueues the
one-character strings B and 1, crashes looking up B, and never reaches B1 —
although B1 is in the store and the reachable set is exactly the ids of A and
B1.  The claimed closure is therefore not computed. -/
theorem c1_subject_characters_keyerror :
    makeRun 10 cfg1 elems1 = .err (.keyError ("B".toList))
      ∧ storeGet (buildStore elems1) ("B1".toList) = some elemB1
      ∧ storeGet (buildStore elems1) ("B".toList) = none := by decide

/-- C2: on a store with the two-element reference cycle A-B (each a
relationship pointing at the other) and seed A, the closure-building loop of
SpdxFile.make never terminates: newly discovered ids are filtered only against
the current worklist rather than the visited set, so the worklist alternates
between A and B forever.  The run reports fuel exhaustion at every fuel. -/
theorem c2_cycle_loop_never_terminates :
    ∀ fuel, makeRun fuel cfg2 elems2 = .hang := by
  intro fuel
  cases fuel with
  | zero => rfl
  | succ n => exact (makeLoop_cycle_alternates n).2

/-- C3 fails as stated: with namespace ab, the scheme-less identifier ab
resolves under the context to abab, but compressing abab back removes both
occurrences of the namespace (str.replace replaces all occurrences), yielding
the empty string instead of ab. -/
theorem c3_roundtrip_counterexample :
    pyUrlparse ("ab".toList) = .ok ⟨[], "ab".toList⟩
      ∧ expandIri ctxAB ("ab".toList) = .ok ("abab".toList)
      ∧ compressIri ctxAB ("abab".toList) = []
      ∧ compressIri ctxAB ("abab".toList) ≠ "ab".toList := by decide

/-- C3 amended: the round trip compress(expand(id)) = id holds for scheme-less
identifiers provided the namespace is non-empty and does not occur inside id;
and expand(compress(iri)) = iri holds for scheme-carrying IRIs that start with
neither the namespace nor any prefix value, provided the context has a prefix
table in which the parsed (lowercased) scheme maps to nothing or to a falsy
prefix. -/
theorem c3_roundtrip_amended :
    (∀ (c : Ctx) (idv : Str) (u : UrlParts),
       c.truthy = true → pyUrlparse idv = .ok u → u.scheme = [] →
       c.namespc.getD [] ≠ [] → occursIn (c.namespc.getD []) idv = false →
       expandIri c idv = .ok ((c.namespc.getD []) ++ idv)
         ∧ compressIri c ((c.namespc.getD []) ++ idv) = idv)
    ∧
    (∀ (c : Ctx) (iri : Str) (u : UrlParts) (ps : List (Str × Str)),
       (c.namespc.getD []).isPrefixOf iri = false →
       (∀ kv ∈ c.prefixes.getD [], kv.2.isPrefixOf iri = false) →
       pyUrlparse iri = .ok u → u.scheme ≠ [] → c.prefixes = some ps →
       (lookupAssoc ps u.scheme).getD [] = [] →
       compressIri c iri = iri ∧ expandIri c (compressIri c iri) = .ok iri) := by
  constructor
  · intro c idv u ht hu hscheme hbase hocc
    constructor
    · unfold expandIri
      rw [ht]
      simp only [Bool.not_true, Bool.false_eq_true, if_false, hu]
      simp [hscheme]
    · unfold compressIri
      rw [ht]
      simp only [Bool.not_true, Bool.false_eq_true, if_false]
      rw [if_pos]
      · exact pyReplace_strip (c.namespc.getD []) [] idv hbase hocc
      · simp only [Bool.and_eq_true]
        exact ⟨by simpa [List.isEmpty_iff] using hbase,
               isPrefixOf_append_self (c.namespc.getD []) idv⟩
  · intro c iri u ps hbase hpre hu hscheme hps hlook
    have hkey : compressIri c iri = iri := by
      unfold compressIri
      cases ht : c.truthy with
      | false => simp
      | true =>
        simp only [Bool.not_true, Bool.false_eq_true, if_false]
        rw [if_neg (by simp [hbase]), prefixLoop_no_match iri _ hpre]
    refine ⟨hkey, ?_⟩
    rw [hkey]
    unfold expandIri
    cases ht : c.truthy with
    | false => simp
    | true =>
      simp only [Bool.not_true, Bool.false_eq_true, if_false, hu]
      rw [hps]
      simp [hscheme, hlook]

/-- Concrete instantiation of both directions of the amended round trip:
namespace N# with prefix ext mapped to P#, identifier foo (direction one) and
IRI q:z whose scheme is unmapped (direction two). -/
theorem c3_roundtrip_amended_witness :
    (compressIri ctx5 ((ctx5.namespc.getD []) ++ "foo".toList) = "foo".toList)
      ∧ (compressIri ctx5 ("q:z".toList) = "q:z".toList
          ∧ expandIri ctx5 (compressIri ctx5 ("q:z".toList)) = .ok ("q:z".toList)) :=
  ⟨(c3_roundtrip_amended.1 ctx5 ("foo".toList) ⟨[], "foo".toList⟩ (by decide) (by decide)
      (by decide) (by decide) (by decide)).2,
   c3_roundtrip_amended.2 ctx5 ("q:z".toList) ⟨"q".toList, "z".toList⟩
      [("ext".toList, "P#".toList)] (by decide) (by decide) (by decide) (by decide)
      (by decide) (by decide)⟩

/-- C4 fails as stated: with namespace ab, compressing abab should per the
claim return the remainder ab after stripping the leading namespace, but the
code's str.replace removes every occurrence and returns the empty string. -/
theorem c4_compress_counterexample :
    compressSpecClaim ctxAB ("abab".toList) = "ab".toList
      ∧ compressIri ctxAB ("abab".toList) = []
      ∧ compressIri ctxAB ("abab".toList) ≠ compressSpecClaim ctxAB ("abab".toList) := by
  decide

/-- C4 amended: for a truthy context with a non-empty namespace, compress
behaves exactly as the claim describes except that the matched namespace or
first matching prefix value is replaced at every non-overlapping occurrence,
not only at the front (the two agree whenever the matched string occurs only
as the leading prefix). -/
theorem c4_compress_amended :
    ∀ (c : Ctx) (iri : Str), c.truthy = true → c.namespc.getD [] ≠ [] →
      compressIri c iri = compressSpecAmended c iri := by
  intro c iri ht hb
  unfold compressIri compressSpecAmended
  rw [ht]
  simp only [Bool.not_true, Bool.false_eq_true, if_false]
  have hbe : (c.namespc.getD []).isEmpty = false := by simpa [List.isEmpty_iff] using hb
  cases hp : (c.namespc.getD []).isPrefixOf iri with
  | true => simp [hbe, hp]
  | false => simp [hbe, hp, prefixLoop_eq_find]

/-- Concrete instantiation of the amended compress description on the
scenario context. -/
theorem c4_compress_amended_witness :
    ctx9.truthy = true
      ∧ compressIri ctx9 ("https://example.org/shared#bar".toList)
          = compressSpecAmended ctx9 ("https://example.org/shared#bar".toList) :=
  ⟨by decide,
   c4_compress_amended ctx9 ("https://example.org/shared#bar".toList) (by decide) (by decide)⟩

/-- C5 fails as stated: with prefix ext mapped to P#, expanding ext:bar#frag
should per the claim give P# plus the entire remainder bar#frag, but the code
concatenates the prefix with only the urlparse path component, dropping the
fragment: the result is P#bar. -/
theorem c5_expand_counterexample :
    expandIri ctx5 ("ext:bar#frag".toList) = .ok ("P#bar".toList)
      ∧ expandSpecClaim ctx5 ("ext:bar#frag".toList) = .ok ("P#bar#frag".toList)
      ∧ expandIri ctx5 ("ext:bar#frag".toList)
          ≠ expandSpecClaim ctx5 ("ext:bar#frag".toList) := by decide

/-- C5 amended: for a truthy context and an identifier whose urlparse succeeds
with a non-empty scheme, expand returns the looked-up prefix concatenated with
the urlparse path component only (netloc, parameters, query and fragment are
dropped), returns the identifier unchanged when the scheme is unmapped or maps
to a falsy prefix, and raises KeyError when the context has no prefix table. -/
theorem c5_expand_amended :
    ∀ (c : Ctx) (idv : Str) (u : UrlParts),
      c.truthy = true → pyUrlparse idv = .ok u → u.scheme ≠ [] →
      expandIri c idv = expandSpecAmended c idv := by
  intro c idv u ht hu hscheme
  unfold expandIri expandSpecAmended
  rw [ht]
  simp only [Bool.not_true, Bool.false_eq_true, if_false, hu]
  simp [hscheme]

/-- Concrete instantiation of the amended expand description at the
fragment-dropping input. -/
theorem c5_expand_amended_witness :
    ctx5.truthy = true
      ∧ expandIri ctx5 ("ext:bar#frag".toList)
          = expandSpecAmended ctx5 ("ext:bar#frag".toList) :=
  ⟨by decide,
   c5_expand_amended ctx5 ("ext:bar#frag".toList) ⟨"ext".toList, "bar".toList⟩
     (by decide) (by decide) (by decide)⟩

/-- C6: when the configured creationInfo identifier is absent from the element
store, SpdxFile.make fails at the creation-info lookup with a KeyError naming
that identifier; the run ends in an error, so the single output write (the ok
value of the run) never happens. -/
theorem c6_creation_info_missing :
    ∀ (fuel : Nat) (cfg : Config) (es : List Element) (ci : Str),
      cfg.creationInfo = some ci → storeGet (buildStore es) ci = none →
      makeRun fuel cfg es = .err (.keyError ci) := by
  intro fuel cfg es ci hci hst
  unfold makeRun
  simp [hci, hst]

/-- Concrete instantiation: cfg1 names CI as creation info, the empty store
has no CI, and make fails with KeyError CI before producing any output. -/
theorem c6_creation_info_missing_witness :
    cfg1.creationInfo = some ("CI".toList)
      ∧ storeGet (buildStore []) ("CI".toList) = none
      ∧ makeRun 3 cfg1 [] = .err (.keyError ("CI".toList)) :=
  ⟨by decide, by decide,
   c6_creation_info_missing 3 cfg1 [] ("CI".toList) (by decide) (by decide)⟩

/-- C7 fails as stated: compress_ids does mutate the element it is given.  On
an element whose id lies under the namespace, the element after the call
differs from the element before it (the id has been rewritten in place), so
the transform does not leave the original unchanged. -/
theorem c7_no_mutation_counterexample :
    compressIdsElement ctxN e7 = .ok (e7post, [.s ("N#x".toList)])
      ∧ e7post ≠ e7 := by decide

/-- C7 amended: the identifier transforms rewrite the element in place.  After
a successful compress_ids call the element's id holds the compressed form of
the original id, an absent creator stays absent, and a present creator value
is replaced by the one-element list of its compressed form. -/
theorem c7_in_place_rewrite_amended :
    ∀ (c : Ctx) (e e2 : Element) (ids : List PVal),
      compressIdsElement c e = .ok (e2, ids) →
      e2.id = compressIri c e.id
        ∧ (e.creator = none → e2.creator = none)
        ∧ (∀ cv, e.creator = some cv →
             ∃ cv2, compressIriV c cv = .ok cv2 ∧ e2.creator = some (.arr [cv2])) := by
  intro c e e2 ids h
  unfold compressIdsElement at h
  cases hc : e.creator with
  | none =>
    rw [hc] at h
    dsimp only at h
    cases ht : processTyps c e.typ with
    | error er => rw [ht] at h; cases h
    | ok pr =>
      rw [ht] at h
      simp only [Except.ok.injEq, Prod.mk.injEq] at h
      refine ⟨?_, ?_, ?_⟩
      · rw [← h.1]
      · intro _; rw [← h.1]
      · intro cv hcv; cases hcv
  | some cv =>
    rw [hc] at h
    dsimp only at h
    cases hv : compressIriV c cv with
    | error er => rw [hv] at h; cases h
    | ok cv2 =>
      rw [hv] at h
      dsimp only at h
      cases ht : processTyps c e.typ with
      | error er => rw [ht] at h; cases h
      | ok pr =>
        rw [ht] at h
        simp only [Except.ok.injEq, Prod.mk.injEq] at h
        refine ⟨?_, ?_, ?_⟩
        · rw [← h.1]
        · intro hnone; cases hnone
        · intro cv' hcv'
          cases hcv'
          exact ⟨cv2, hv, by rw [← h.1]⟩

/-- Concrete instantiation of the in-place rewrite: e7b's id and creator are
rewritten to their compressed forms. -/
theorem c7_in_place_rewrite_amended_witness :
    compressIdsElement ctxN e7b
        = .ok (e7bPost, [.s ("N#x".toList), .s ("N#y".toList)])
      ∧ e7bPost.id = compressIri ctxN e7b.id :=
  ⟨by decide,
   (c7_in_place_rewrite_amended ctxN e7b e7bPost
      [.s ("N#x".toList), .s ("N#y".toList)] (by decide)).1⟩

/-- C8: an identifier that starts with neither the context's namespace nor any
prefix-table value is returned unchanged by compress, and hence compressing a
second time under that hypothesis for the once-compressed value is a no-op. -/
theorem c8_compress_idempotent :
    ∀ (c : Ctx) (iri : Str),
      (c.namespc.getD []).isPrefixOf iri = false →
      (∀ kv ∈ c.prefixes.getD [], kv.2.isPrefixOf iri = false) →
      compressIri c iri = iri
        ∧ compressIri c (compressIri c iri) = compressIri c iri := by
  intro c iri h1 h2
  have key : compressIri c iri = iri := by
    unfold compressIri
    cases ht : c.truthy with
    | false => simp
    | true =>
      simp only [Bool.not_true, Bool.false_eq_true, if_false]
      rw [if_neg (by simp [h1]), prefixLoop_no_match iri _ h2]
  exact ⟨key, by rw [key, key]⟩

/-- Concrete instantiation of idempotence: the shorthand z starts with neither
the namespace nor the single prefix value of the context. -/
theorem c8_compress_idempotent_witness :
    (ctx5.namespc.getD []).isPrefixOf ("z".toList) = false
      ∧ compressIri ctx5 ("z".toList) = "z".toList
      ∧ compressIri ctx5 (compressIri ctx5 ("z".toList)) = compressIri ctx5 ("z".toList) :=
  ⟨by decide,
   (c8_compress_idempotent ctx5 ("z".toList) (by decide) (by decide)).1,
   (c8_compress_idempotent ctx5 ("z".toList) (by decide) (by decide)).2⟩

/-- C9: the concrete scenario of the spec holds on the code: under the doc1
namespace with prefix ext for the shared namespace, foo expands to the doc1
IRI of foo, the shared IRI of bar compresses to ext:bar, and the doc1 IRI of
foo compresses back to foo. -/
theorem c9_scenario :
    expandIri ctx9 ("foo".toList) = .ok ("https://example.org/doc1#foo".toList)
      ∧ compressIri ctx9 ("https://example.org/shared#bar".toList) = "ext:bar".toList
      ∧ compressIri ctx9 ("https://example.org/doc1#foo".toList) = "foo".toList := by
  decide

/-- C10: with a falsy (empty) context dict, compress is the identity
transform on every IRI, mirroring what the spec states for expand. -/
theorem c10_compress_falsy_identity :
    ∀ (c : Ctx) (iri : Str), c.truthy = false → compressIri c iri = iri := by
  intro c iri h
  unfold compressIri
  simp [h]

/-- Concrete instantiation: the empty context leaves an absolute IRI as is. -/
theorem c10_compress_falsy_identity_witness :
    ctxEmpty.truthy = false
      ∧ compressIri ctxEmpty ("https://example.org/doc1#foo".toList)
          = "https://example.org/doc1#foo".toList :=
  ⟨by decide,
   c10_compress_falsy_identity ctxEmpty ("https://example.org/doc1#foo".toList) (by decide)⟩
